import Mathlib

/-! # Verification of the pente_microservice1 authorization core

A shallow embedding of the RBAC data model (Permission → Policy → Role →
UserRoleAssignment), the assignment store / authorization resolver
(`UserRoleService`, `user_roles.schema.ts`), and the administrator account
lifecycle controller (`TeamManagementService`), translated from the
TypeScript source.

Conventions of the embedding:
* MongoDB ObjectIds are `Nat`; Mongo collections are Lean `List`s of
  documents; `findOne` is `List.find?`, `find` is `List.filter`, and a
  `doc.save()` on an existing document replaces every stored document with
  the same `_id`.
* Dates are `Nat` timestamps; `Date` comparisons become `Nat` comparisons.
* Optional / nullable fields are `Option`; a Mongo query clause
  `{field: null}` matches both a null and a missing field, so both are
  modelled by `none`.
* Fallible operations return `Except` with an error type mirroring the
  NestJS exception classes that the source throws.
-/

namespace Pente

/-- MongoDB ObjectIds, abstracted to `Nat`. -/
abbrev ObjectId := Nat

/-! ## Permission schema (`permissions.schema.ts`, src/unnamed/part_007) -/

/-- A `permissions` collection document.  `permissionIdentifier` is `Option`
because the pre-save hook tests JS falsiness (`!this.permissionIdentifier`)
before deriving it; an absent identifier is `none`. -/
structure Permission where
  _id : ObjectId
  permissionIdentifier : Option String
  name : String
  description : Option String
  resource : String
  action : String
  isActive : Bool
  deletedAt : Option Nat
deriving DecidableEq, Repr

/-- The `PermissionSchema.pre('save')`: derives `permissionIdentifier` as
`resource + ":" + action` when it is JS-falsy (absent or empty) and both
`resource` and `action` are truthy (non-empty).  The schema's `trim` /
`lowercase` setters are identity plumbing for this derivation (both sides
of the equation are the stored, already-normalized values), so they are not
modelled separately. -/
def permissionPreSave (p : Permission) : Permission :=
  if p.permissionIdentifier.getD "" = "" ∧ p.resource ≠ "" ∧ p.action ≠ "" then
    { p with permissionIdentifier := some (p.resource ++ ":" ++ p.action) }
  else
    p

/-- The argument object of `PermissionService.create`. -/
structure CreatePermissionData where
  resource : String
  action : String
  name : String
  description : Option String
  permissionIdentifier : Option String
  isActive : Option Bool
deriving DecidableEq, Repr

/-- The `new this.permissionModel(data)`: builds the document, applying the
schema defaults (`isActive: true`, `deletedAt: null`). -/
def mkPermission (freshId : ObjectId) (data : CreatePermissionData) : Permission :=
  { _id := freshId
    permissionIdentifier := data.permissionIdentifier
    name := data.name
    description := data.description
    resource := data.resource
    action := data.action
    isActive := data.isActive.getD true
    deletedAt := none }

/-- The `PermissionService.create`: constructs the document and saves it; the
`save()` runs the pre-save hook.  Returns the saved document and the
updated collection. -/
def permissionServiceCreate (db : List Permission) (data : CreatePermissionData)
    (freshId : ObjectId) : Permission × List Permission :=
  let saved := permissionPreSave (mkPermission freshId data)
  (saved, db ++ [saved])

/-- The patch object of `PermissionService.update` (`Partial<Permission>`):
each field is present (`some`) or absent (`none`) from the patch. -/
structure PermissionPatch where
  permissionIdentifier : Option String
  name : Option String
  description : Option String
  resource : Option String
  action : Option String
  isActive : Option Bool
deriving DecidableEq, Repr

/-- Field-wise `$set` application of a partial update, as
`findByIdAndUpdate` performs it.  No save hook runs on this path. -/
def applyPermissionPatch (p : Permission) (patch : PermissionPatch) : Permission :=
  { p with
    permissionIdentifier := patch.permissionIdentifier.elim p.permissionIdentifier some
    name := patch.name.getD p.name
    description := patch.description.elim p.description some
    resource := patch.resource.getD p.resource
    action := patch.action.getD p.action
    isActive := patch.isActive.getD p.isActive }

/-- The `PermissionService.update`: `findByIdAndUpdate(id, data, {new: true})` —
finds the document by `_id`, applies the patch atomically (without running
the `pre('save')` hook), persists, and returns the updated document
(`null` when the id is absent). -/
def permissionServiceUpdate (db : List Permission) (id : ObjectId)
    (patch : PermissionPatch) : Option Permission × List Permission :=
  match db.find? (fun p => p._id == id) with
  | none => (none, db)
  | some p =>
    let p' := applyPermissionPatch p patch
    (some p', db.map (fun q => if q._id == id then p' else q))

/-- The `PermissionService.findAll`: `find({deletedAt: null})` sorted by
resource then action. -/
def permissionFindAll (db : List Permission) : List Permission :=
  (db.filter (fun p => p.deletedAt == none)).mergeSort
    (fun a b => a.resource < b.resource ∨ (a.resource = b.resource ∧ a.action ≤ b.action))

/-! ## Policy schema (`policy.schema.ts`) -/

/-- A `policy` collection document.  `permissions` holds `Permission`
ObjectId references. -/
structure Policy where
  _id : ObjectId
  policyIdentifier : String
  name : String
  description : Option String
  permissions : List ObjectId
  priority : Nat
  isActive : Bool
  isSystem : Bool
  deletedAt : Option Nat
  category : String
deriving DecidableEq, Repr

/-- The `PolicySchema.methods.softDelete`: throws when `isSystem`, otherwise
sets `deletedAt` and clears `isActive` and saves.  The returned value is
the document as persisted. -/
def Policy.softDelete (p : Policy) (now : Nat) : Except String Policy :=
  if p.isSystem then
    .error "Cannot delete system policies"
  else
    .ok { p with deletedAt := some now, isActive := false }

/-- The `PolicySchema.methods.addPermission`: pushes the id only when
`permissions.includes(permissionId)` is false.  Mongoose arrays override
`indexOf`/`includes` to compare ObjectIds by value, so membership is plain
equality of ids. -/
def Policy.addPermission (p : Policy) (permissionId : ObjectId) : Policy :=
  if permissionId ∈ p.permissions then p
  else { p with permissions := p.permissions ++ [permissionId] }

/-- The `PolicySchema.methods.removePermission`: filters the id out by value. -/
def Policy.removePermission (p : Policy) (permissionId : ObjectId) : Policy :=
  { p with permissions := p.permissions.filter (fun id => id ≠ permissionId) }

/-- The `doc.save()` on an existing policy document: replaces the stored
document(s) carrying its `_id`. -/
def savePolicy (db : List Policy) (p : Policy) : List Policy :=
  db.map (fun q => if q._id == p._id then p else q)

/-- The `PolicyService.findAll`: `find({deletedAt: null})` sorted by priority
descending, permission references populated (population does not change
membership, which is what the claims quantify over, so the result keeps
the raw documents). -/
def policyFindAll (db : List Policy) : List Policy :=
  (db.filter (fun p => p.deletedAt == none)).mergeSort
    (fun a b => b.priority ≤ a.priority)

/-! ## Role schema (`roles.schema.ts`, second half of policy.schema.ts file) -/

/-- A `roles` collection document.  `policies` holds `Policy` ObjectId
references. -/
structure Role where
  _id : ObjectId
  roleIdentifier : String
  name : String
  description : Option String
  policies : List ObjectId
  level : Nat
  isActive : Bool
  isSystem : Bool
  isDefault : Bool
  deletedAt : Option Nat
deriving DecidableEq, Repr

/-- The `RoleSchema.methods.softDelete`: throws when `isSystem`, then when
`isDefault`; otherwise sets `deletedAt` and clears `isActive`. -/
def Role.softDelete (r : Role) (now : Nat) : Except String Role :=
  if r.isSystem then
    .error "Cannot delete system roles"
  else if r.isDefault then
    .error "Cannot delete default role"
  else
    .ok { r with deletedAt := some now, isActive := false }

/-- The `RoleSchema.methods.addPolicy`: mirrors `Policy.addPermission` one
level up. -/
def Role.addPolicy (r : Role) (policyId : ObjectId) : Role :=
  if policyId ∈ r.policies then r
  else { r with policies := r.policies ++ [policyId] }

/-- The `doc.save()` on an existing role document. -/
def saveRole (db : List Role) (r : Role) : List Role :=
  db.map (fun q => if q._id == r._id then r else q)

/-- The `RoleService.findAll`: `find({deletedAt: null})` sorted by level
descending. -/
def roleFindAll (db : List Role) : List Role :=
  (db.filter (fun r => r.deletedAt == none)).mergeSort
    (fun a b => b.level ≤ a.level)

/-! ## UserRole schema (`user_roles.schema.ts`, src/unnamed/part_007) and
`UserRoleService` (src/src/rbac/services/user-role.service.ts)

The `UserRole` schema class declares the paths `userId`, `roleId`,
`isActive`, `assignedBy`, `assignedAt`, `reason`, `deletedAt`, `metadata`.
It declares **no `expiresAt` path** and defines exactly two instance
methods, `revoke` and `restore`.  `expiresAt` nevertheless appears in the
schema's static queries (`getActiveUserRoles`, `getUsersWithRole`,
`hasRole`), so the embedded document type keeps the field in order to give
those queries their MongoDB semantics (a missing field and a null field
both match `{expiresAt: null}` and are both `none` here).  Because the
path is absent from the schema, Mongoose's default strict mode discards
`expiresAt` values on every write performed by this repository's code;
`persistUserRole` below models that. -/

/-- The `metadata` object of an assignment, restricted to the keys this
codebase writes (`UserRoleSchema.methods.revoke` spreads `revokedBy` and
`revokedAt` into it). -/
structure UserRoleMeta where
  revokedBy : Option String
  revokedAt : Option Nat
deriving DecidableEq, Repr

/-- An empty `metadata` object (the schema default `{}`). -/
def UserRoleMeta.empty : UserRoleMeta := { revokedBy := none, revokedAt := none }

/-- A `user_roles` collection document. -/
structure UserRole where
  _id : ObjectId
  userId : String
  roleId : ObjectId
  isActive : Bool
  assignedBy : Option String
  assignedAt : Nat
  reason : Option String
  deletedAt : Option Nat
  expiresAt : Option Nat
  metadata : UserRoleMeta
deriving DecidableEq, Repr

/-- Strict-mode persistence of a `UserRole` document: the schema declares
no `expiresAt` path, so a stray `expiresAt` value on the in-memory
document is not written to the collection. -/
def persistUserRole (d : UserRole) : UserRole :=
  { d with expiresAt := none }

/-- The `doc.save()` on an existing assignment: replaces the stored
document(s) carrying its `_id` with the strict-mode persisted value. -/
def saveUserRole (db : List UserRole) (d : UserRole) : List UserRole :=
  db.map (fun q => if q._id == d._id then persistUserRole d else q)

/-- The filter `{userId, roleId}` used by `assignRole`'s `findOne`. -/
def pairFilter (userId : String) (roleId : ObjectId) (d : UserRole) : Bool :=
  d.userId == userId && d.roleId == roleId

/-- The filter `{userId, roleId, isActive: true}` used by `revokeRole`'s
and `extendExpiry`'s `findOne`. -/
def activePairFilter (userId : String) (roleId : ObjectId) (d : UserRole) : Bool :=
  d.userId == userId && d.roleId == roleId && d.isActive

/-- The clause `$or: [{expiresAt: null}, {expiresAt: {$gt: now}}]`:
a missing/null `expiresAt` matches the first disjunct, a dated one matches
when strictly in the future. -/
def expiryClause (now : Nat) (d : UserRole) : Bool :=
  match d.expiresAt with
  | none => true
  | some t => now < t

/-- The full filter of `UserRoleSchema.statics.getActiveUserRoles`:
`{userId, isActive: true, deletedAt: null, $or: [{expiresAt: null},
{expiresAt: {$gt: new Date()}}]}`. -/
def activeUserRolesFilter (userId : String) (now : Nat) (d : UserRole) : Bool :=
  d.userId == userId && d.isActive && d.deletedAt == none && expiryClause now d

/-- The argument object of `UserRoleService.assignRole`. -/
structure AssignRoleData where
  userId : String
  roleId : ObjectId
  assignedBy : Option String
  expiresAt : Option Nat
  reason : Option String
deriving DecidableEq, Repr

/-- The `new this.userRoleModel({userId, roleId, assignedBy, expiresAt,
reason})` with the schema defaults (`isActive: true`, `assignedAt:
Date.now`, `deletedAt: null`, `metadata: {}`).  The constructor runs under
strict mode, so the undeclared `expiresAt` key of the argument object is
ignored and the document carries none. -/
def mkUserRole (freshId : ObjectId) (data : AssignRoleData) (now : Nat) : UserRole :=
  { _id := freshId
    userId := data.userId
    roleId := data.roleId
    isActive := true
    assignedBy := data.assignedBy
    assignedAt := now
    reason := data.reason
    deletedAt := none
    expiresAt := none
    metadata := UserRoleMeta.empty }

/-- The `UserRoleService.assignRole`: looks up any assignment (live or
soft-deleted) for the `(userId, roleId)` pair; restores a soft-deleted
one in place, returns a live one unchanged without saving, and otherwise
creates a new row.  In the restore branch the raw property write
`(existingAssignment as any).expiresAt = data.expiresAt` places a stray
`expiresAt` on the returned in-memory document, which `saveUserRole`
then drops (the schema has no such path).  Returns the document the
service returns together with the updated collection. -/
def assignRole (db : List UserRole) (data : AssignRoleData) (now : Nat)
    (freshId : ObjectId) : UserRole × List UserRole :=
  match db.find? (pairFilter data.userId data.roleId) with
  | some existing =>
    if existing.deletedAt ≠ none then
      let restored : UserRole :=
        { existing with
          deletedAt := none
          isActive := true
          assignedBy := data.assignedBy
          reason := some ((data.reason).getD "Role restored")
          expiresAt := if data.expiresAt.isSome then data.expiresAt else existing.expiresAt }
      (restored, saveUserRole db restored)
    else
      (existing, db)
  | none =>
    let created := mkUserRole freshId data now
    (created, db ++ [persistUserRole created])

/-- The `UserRoleSchema.methods.revoke`: sets `deletedAt`, clears `isActive`,
and — only when a `revokedBy` argument was passed — spreads `revokedBy`
and `revokedAt` into `metadata`; then saves. -/
def UserRole.revoke (d : UserRole) (revokedBy : Option String) (now : Nat) : UserRole :=
  let d1 := { d with deletedAt := some now, isActive := false }
  match revokedBy with
  | some rb => { d1 with metadata := { d1.metadata with revokedBy := some rb, revokedAt := some now } }
  | none => d1

/-- The `UserRoleService.revokeRole`: `findOne({userId, roleId, isActive:
true})`; calls the document's `revoke` method when found, else returns
`null`.  Returns the service's return value with the updated
collection. -/
def revokeRole (db : List UserRole) (userId : String) (roleId : ObjectId)
    (revokedBy : Option String) (now : Nat) : Option UserRole × List UserRole :=
  match db.find? (activePairFilter userId roleId) with
  | some d =>
    let d' := d.revoke revokedBy now
    (some d', saveUserRole db d')
  | none => (none, db)

/-- The `UserRoleService.extendExpiry`: `findOne({userId, roleId, isActive:
true})`, then the dynamic call `(userRole as any).extendExpiry(days)`.
The `UserRole` schema defines only the instance methods `revoke` and
`restore` (and declares no `expiresAt` path at all), so whenever an
active assignment is found the dynamic call throws a `TypeError`; only
the not-found branch completes, returning `null`. -/
def extendExpiry (db : List UserRole) (userId : String) (roleId : ObjectId)
    (_days : Nat) : Except String (Option UserRole) :=
  match db.find? (activePairFilter userId roleId) with
  | some _ => .error "TypeError: userRole.extendExpiry is not a function"
  | none => .ok none

/-! ## Population (Mongoose `populate`) and the authorization resolver

A stored reference field holds an ObjectId; `populate` replaces it by the
referenced document (or null when the referenced document is absent).  A
field that a given query does **not** populate stays an ObjectId.  The
reference/document alternative is made explicit so that the depth of
expansion a query performs is observable in its result type. -/

/-- A `Permission` reference inside a returned `Policy`: either still a
raw ObjectId or an expanded document. -/
inductive PermRef
  | ref (id : ObjectId)
  | doc (p : Permission)
deriving DecidableEq, Repr

/-- A returned `Policy` document whose permission references may or may
not have been expanded. -/
structure PolicyPop where
  _id : ObjectId
  policyIdentifier : String
  name : String
  description : Option String
  permissions : List PermRef
  priority : Nat
  isActive : Bool
  isSystem : Bool
  deletedAt : Option Nat
  category : String
deriving DecidableEq, Repr

/-- A `Policy` reference inside a returned `Role`. -/
inductive PolicyRef
  | ref (id : ObjectId)
  | doc (p : PolicyPop)
deriving DecidableEq, Repr

/-- A returned `Role` document whose policy references may or may not have
been expanded. -/
structure RolePop where
  _id : ObjectId
  roleIdentifier : String
  name : String
  description : Option String
  policies : List PolicyRef
  level : Nat
  isActive : Bool
  isSystem : Bool
  isDefault : Bool
  deletedAt : Option Nat
deriving DecidableEq, Repr

/-- A returned assignment after `populate('roleId')`: the raw document
plus the role field, now holding the referenced `Role` document or null. -/
structure UserRolePop where
  doc : UserRole
  role : Option RolePop
deriving DecidableEq, Repr

/-- A plain (un-nested) population of a stored `Role`: the document
itself, its policy references left as ObjectIds. -/
def Role.shallowPop (r : Role) : RolePop :=
  { _id := r._id
    roleIdentifier := r.roleIdentifier
    name := r.name
    description := r.description
    policies := r.policies.map PolicyRef.ref
    level := r.level
    isActive := r.isActive
    isSystem := r.isSystem
    isDefault := r.isDefault
    deletedAt := r.deletedAt }

/-- The four MongoDB collections the RBAC resolver reads. -/
structure RbacDb where
  userRoles : List UserRole
  roles : List Role
  policies : List Policy
  permissions : List Permission
deriving Repr

/-- The `UserRoleSchema.statics.getActiveUserRoles(userId)` as called through
`UserRoleService.getUserRoles`: filters the `user_roles` collection by
`{userId, isActive: true, deletedAt: null, $or: [{expiresAt: null},
{expiresAt: {$gt: new Date()}}]}` and then runs `.populate('roleId')` —
a single-level population with no nested `path: 'policies'` /
`path: 'permissions'` population. -/
def getActiveUserRoles (db : RbacDb) (userId : String) (now : Nat) : List UserRolePop :=
  (db.userRoles.filter (activeUserRolesFilter userId now)).map (fun d =>
    { doc := d, role := (db.roles.find? (fun r => r._id == d.roleId)).map Role.shallowPop })

/-! ### The spec's effectiveness predicate and expansion requirement

These two definitions are written from the specification's words (not from
the source), to be compared against the behaviour of
`getActiveUserRoles`. -/

/-- Spec §3: an assignment is effective iff the userId matches, `isActive
= true`, `deletedAt = null`, and `expiresAt` is null or in the future. -/
def specEffective (userId : String) (now : Nat) (d : UserRole) : Prop :=
  d.userId = userId ∧ d.isActive = true ∧ d.deletedAt = none ∧
    (d.expiresAt = none ∨ ∃ t, d.expiresAt = some t ∧ now < t)

instance (userId : String) (now : Nat) (d : UserRole) :
    Decidable (specEffective userId now d) := by
  unfold specEffective
  infer_instance

/-- Spec §4.4 / claim C1's expansion requirement on a single returned
assignment: it is expanded with its Role, which is expanded with its
Policies, each expanded with its Permissions — i.e. the role field holds a
document whose policy references are all documents whose permission
references are all documents. -/
def specDeeplyExpanded (item : UserRolePop) : Bool :=
  match item.role with
  | none => false
  | some r =>
    r.policies.all (fun pr =>
      match pr with
      | .ref _ => false
      | .doc p =>
        p.permissions.all (fun qr =>
          match qr with
          | .ref _ => false
          | .doc _ => true))

/-! ## Administrator accounts and the lifecycle controller
(`admin-user.entity.ts` src/unnamed/part_002, `TeamManagementService`
src/unnamed/part_004) -/

/-- The `AdminUserType` enum. -/
inductive AdminUserType
  | admin
  | super_admin
deriving DecidableEq, Repr

/-- The `AdminUserStatus` enum. -/
inductive AdminUserStatus
  | active
  | inactive
  | suspended
deriving DecidableEq, Repr

/-- An `admin_users` row (the fields the lifecycle controller reads). -/
structure AdminUser where
  id : String
  email : String
  name : Option String
  adminUserType : AdminUserType
  adminUserStatus : AdminUserStatus
deriving DecidableEq, Repr

/-- The NestJS exception classes thrown by `TeamManagementService`, each
carrying its message payload.  A message can be a plain string or — for
payloads relayed from the auth service — a list of strings. -/
inductive HttpMsg
  | str (s : String)
  | list (l : List String)
deriving DecidableEq, Repr

/-- The exception classes of `@nestjs/common` used by the service.  In the
spec's error taxonomy (§7), `forbiddenException ↦ Forbidden`,
`notFoundException ↦ NotFound`, `badRequestException ↦ BadRequest`,
`conflictException ↦ Conflict`, and `internalServerErrorException` with
the `AUTH_SERVICE_UNAVAILABLE` message ↦ `ServiceUnavailable` (otherwise a
generic failure). -/
inductive NestError
  | conflictException (msg : HttpMsg)
  | badRequestException (msg : HttpMsg)
  | notFoundException (msg : HttpMsg)
  | forbiddenException (msg : HttpMsg)
  | internalServerErrorException (msg : HttpMsg)
deriving DecidableEq, Repr

/-- The `ERROR_MESSAGES` constants (messages.constant.ts) used by the
lifecycle controller and the auth-service error translation. -/
def ADMIN_NOT_FOUND : String := "Admin user not found"
def ADMIN_SELF_SUSPEND : String := "You cannot suspend your own account"
def ADMIN_ALREADY_SUSPENDED : String := "Admin user is already suspended"
def ADMIN_INSUFFICIENT_PERMISSIONS : String :=
  "Insufficient permissions to suspend this admin"
def ADMIN_SELF_REACTIVATE : String := "You cannot reactivate your own account"
def ADMIN_ALREADY_ACTIVE : String := "Admin user is already active"
def ADMIN_INSUFFICIENT_PERMISSIONS_REACTIVATE : String :=
  "Insufficient permissions to reactivate this admin"
def AUTH_SERVICE_SIGNUP_FAILED : String := "Failed to create user in auth service"
def AUTH_SERVICE_UNAVAILABLE : String := "Auth service is currently unavailable"
def AUTH_SERVICE_VALIDATION_ERROR : String := "Auth service validation failed"
def RESET_LINK_SEND_FAILED : String := "Failed to send password reset link"
def USER_NOT_FOUND : String := "User not found"

/-- The `adminUserRepository.findOne({where: {id}})`. -/
def findAdminById (repo : List AdminUser) (id : String) : Option AdminUser :=
  repo.find? (fun a => a.id == id)

/-- The `adminUserRepository.save` of an existing row: replaces the stored
row(s) with its id. -/
def saveAdmin (repo : List AdminUser) (a : AdminUser) : List AdminUser :=
  repo.map (fun b => if b.id == a.id then a else b)

/-- The `TeamManagementService.suspendAdmin(targetAdminId, actorAdminId)`:
guards in source order — self-suspend, target existence, already
suspended, then (only when the actor row is found) admin-over-super_admin
— and otherwise persists `adminUserStatus = SUSPENDED` on the target.
The audit emission (`fireAuditLog`) only logs, is not awaited on the
success path, and has no effect on the repository, so the success value
is the updated target row and repository. -/
def suspendAdmin (repo : List AdminUser) (targetAdminId actorAdminId : String) :
    Except NestError (AdminUser × List AdminUser) :=
  if actorAdminId == targetAdminId then
    .error (.forbiddenException (.str ADMIN_SELF_SUSPEND))
  else
    match findAdminById repo targetAdminId with
    | none => .error (.notFoundException (.str ADMIN_NOT_FOUND))
    | some targetAdmin =>
      if targetAdmin.adminUserStatus == AdminUserStatus.suspended then
        .error (.badRequestException (.str ADMIN_ALREADY_SUSPENDED))
      else
        match findAdminById repo actorAdminId with
        | some actorAdmin =>
          if actorAdmin.adminUserType == AdminUserType.admin &&
              targetAdmin.adminUserType == AdminUserType.super_admin then
            .error (.forbiddenException (.str ADMIN_INSUFFICIENT_PERMISSIONS))
          else
            let updated := { targetAdmin with adminUserStatus := AdminUserStatus.suspended }
            .ok (updated, saveAdmin repo updated)
        | none =>
          let updated := { targetAdmin with adminUserStatus := AdminUserStatus.suspended }
          .ok (updated, saveAdmin repo updated)

/-- The `TeamManagementService.reactivateAdmin(targetAdminId, actorAdminId)`:
the identical guard sequence with states inverted (already-active blocks,
success persists `adminUserStatus = ACTIVE`). -/
def reactivateAdmin (repo : List AdminUser) (targetAdminId actorAdminId : String) :
    Except NestError (AdminUser × List AdminUser) :=
  if actorAdminId == targetAdminId then
    .error (.forbiddenException (.str ADMIN_SELF_REACTIVATE))
  else
    match findAdminById repo targetAdminId with
    | none => .error (.notFoundException (.str ADMIN_NOT_FOUND))
    | some targetAdmin =>
      if targetAdmin.adminUserStatus == AdminUserStatus.active then
        .error (.badRequestException (.str ADMIN_ALREADY_ACTIVE))
      else
        match findAdminById repo actorAdminId with
        | some actorAdmin =>
          if actorAdmin.adminUserType == AdminUserType.admin &&
              targetAdmin.adminUserType == AdminUserType.super_admin then
            .error (.forbiddenException (.str ADMIN_INSUFFICIENT_PERMISSIONS_REACTIVATE))
          else
            let updated := { targetAdmin with adminUserStatus := AdminUserStatus.active }
            .ok (updated, saveAdmin repo updated)
        | none =>
          let updated := { targetAdmin with adminUserStatus := AdminUserStatus.active }
          .ok (updated, saveAdmin repo updated)

/-! ## Translation of auth-service (provisioning collaborator) failures
(`createAdmin` and `sendResetLink` catch blocks, src/unnamed/part_004) -/

/-- The observable shape of a caught `AxiosError`: `code` (e.g.
`'ECONNREFUSED'`), `response?.status`, and `response?.data?.message`
(a string or a list of strings when present). -/
structure AxiosFailure where
  code : Option String
  status : Option Nat
  message : Option HttpMsg
deriving DecidableEq, Repr

/-- The bounded timeout (milliseconds) both axios calls pass
(`timeout: 10000`). -/
def AUTH_SERVICE_TIMEOUT_MS : Nat := 10000

/-- JS `responseData?.message || defaultMsg`: an absent message and an
empty string are falsy and yield the default; a non-empty string and any
array (arrays are truthy) pass through. -/
def HttpMsg.orDefault (m : Option HttpMsg) (d : String) : HttpMsg :=
  match m with
  | none => .str d
  | some (.str s) => if s = "" then .str d else .str s
  | some (.list l) => .list l

/-- The `Array.isArray(m) ? m.join(', ') : m || defaultMsg`: a list-valued
message is joined with `", "`; otherwise JS `||` against the default. -/
def HttpMsg.joinOr (m : Option HttpMsg) (d : String) : String :=
  match m with
  | some (.list l) => String.intercalate ", " l
  | some (.str s) => if s = "" then d else s
  | none => d

/-- The `axiosError.code === 'ECONNREFUSED' || axiosError.code ===
'ETIMEDOUT'`: the connection-failure/timeout test both catch blocks run
first. -/
def isConnFailure (e : AxiosFailure) : Bool :=
  e.code == some "ECONNREFUSED" || e.code == some "ETIMEDOUT"

/-- The catch block of `TeamManagementService.createAdmin`'s auth-service
call: connection failure/timeout first, then status 409 → Conflict,
status 400 → BadRequest with list messages joined, any other failure →
a generic `InternalServerErrorException` carrying the collaborator's
message when present. -/
def createAdminAuthError (e : AxiosFailure) : NestError :=
  if isConnFailure e then
    .internalServerErrorException (.str AUTH_SERVICE_UNAVAILABLE)
  else if e.status == some 409 then
    .conflictException (HttpMsg.orDefault e.message "User already exists in auth service")
  else if e.status == some 400 then
    .badRequestException (.str (HttpMsg.joinOr e.message AUTH_SERVICE_VALIDATION_ERROR))
  else
    .internalServerErrorException (HttpMsg.orDefault e.message AUTH_SERVICE_SIGNUP_FAILED)

/-- The catch block of `TeamManagementService.sendResetLink`: the same
mapping table with status 404 → NotFound in place of the 409 → Conflict
case. -/
def sendResetLinkError (e : AxiosFailure) : NestError :=
  if isConnFailure e then
    .internalServerErrorException (.str AUTH_SERVICE_UNAVAILABLE)
  else if e.status == some 404 then
    .notFoundException (HttpMsg.orDefault e.message USER_NOT_FOUND)
  else if e.status == some 400 then
    .badRequestException (.str (HttpMsg.joinOr e.message AUTH_SERVICE_VALIDATION_ERROR))
  else
    .internalServerErrorException (HttpMsg.orDefault e.message RESET_LINK_SEND_FAILED)

/-! ## Reachable-state invariant of the assignment store

Every write path of this repository goes through `assignRole`,
`UserRole.revoke` (via `revokeRole` / `revokeAllRoles`) or the schema's
`restore`; all of them keep `isActive` and `deletedAt` in lockstep, and
none can persist an `expiresAt` (the schema lacks the path).
`liveConsistent` captures the resulting invariant on stored collections;
preservation lemmas below justify assuming it when settling claims that
speak about "effective" assignments. -/

/-- Stored `user_roles` collections reachable through this repository's
write operations: no document carries a persisted `expiresAt`, and an
`isActive` document is never soft-deleted. -/
def liveConsistent (db : List UserRole) : Prop :=
  ∀ d ∈ db, d.expiresAt = none ∧ (d.isActive = true → d.deletedAt = none)

instance (db : List UserRole) : Decidable (liveConsistent db) := by
  unfold liveConsistent
  infer_instance

/-! ## Concrete fixtures used by witnesses and counterexamples -/

/-- A stored permission `user:read` (spec §8's end-to-end scenario). -/
def permUserRead : Permission :=
  { _id := 3
    permissionIdentifier := some "user:read"
    name := "Read users"
    description := none
    resource := "user"
    action := "read"
    isActive := true
    deletedAt := none }

/-- A stored policy `viewer` containing `permUserRead`. -/
def policyViewer : Policy :=
  { _id := 2
    policyIdentifier := "viewer"
    name := "Viewer policy"
    description := none
    permissions := [3]
    priority := 10
    isActive := true
    isSystem := false
    deletedAt := none
    category := "custom" }

/-- A system policy, protected from soft deletion. -/
def policySystem : Policy :=
  { _id := 7
    policyIdentifier := "system-core"
    name := "System policy"
    description := none
    permissions := []
    priority := 99
    isActive := true
    isSystem := true
    deletedAt := none
    category := "admin" }

/-- A stored role `support` containing `policyViewer`. -/
def roleSupport : Role :=
  { _id := 1
    roleIdentifier := "support"
    name := "Support role"
    description := none
    policies := [2]
    level := 5
    isActive := true
    isSystem := false
    isDefault := false
    deletedAt := none }

/-- A default role, protected from soft deletion. -/
def roleDefault : Role :=
  { _id := 8
    roleIdentifier := "member"
    name := "Default role"
    description := none
    policies := []
    level := 1
    isActive := true
    isSystem := false
    isDefault := true
    deletedAt := none }

/-- A live, effective assignment of `roleSupport` to user `u1`. -/
def urLive : UserRole :=
  { _id := 11
    userId := "u1"
    roleId := 1
    isActive := true
    assignedBy := some "boss"
    assignedAt := 2
    reason := some "onboarding"
    deletedAt := none
    expiresAt := none
    metadata := UserRoleMeta.empty }

/-- The example `user_roles` collection. -/
def exUserRoles : List UserRole := [urLive]

/-- The example RBAC database for resolver claims. -/
def exRbacDb : RbacDb :=
  { userRoles := [urLive]
    roles := [roleSupport]
    policies := [policyViewer]
    permissions := [permUserRead] }

/-- The argument with which `assignRole` is re-invoked on the already
assigned pair in the idempotency witness. -/
def exAssignData : AssignRoleData :=
  { userId := "u1"
    roleId := 1
    assignedBy := some "boss"
    expiresAt := none
    reason := some "onboarding" }

/-- Admin fixtures: an active super_admin. -/
def adminSA : AdminUser :=
  { id := "sa", email := "sa@x.io", name := some "Sup"
    adminUserType := .super_admin, adminUserStatus := .active }

/-- An active plain admin. -/
def adminAD : AdminUser :=
  { id := "ad", email := "ad@x.io", name := some "Adm"
    adminUserType := .admin, adminUserStatus := .active }

/-- An already-suspended admin. -/
def adminSusp : AdminUser :=
  { id := "sp", email := "sp@x.io", name := none
    adminUserType := .admin, adminUserStatus := .suspended }

/-- An inactive super_admin (reactivation target). -/
def adminInactiveSA : AdminUser :=
  { id := "isa", email := "isa@x.io", name := none
    adminUserType := .super_admin, adminUserStatus := .inactive }

/-- The example `admin_users` repository. -/
def exAdminRepo : List AdminUser := [adminSA, adminAD, adminSusp, adminInactiveSA]

/-! # Theorems -/

/-- C8: add-permission on a Policy is idempotent — when the permission id
is already present in the policy's permission set, `addPermission` returns
the policy unchanged (no duplicate entry is pushed); the same holds for
`addPolicy` on a Role.  (Mongoose arrays compare ObjectIds by value in
`includes`, so "already present" is id membership.) -/
theorem addPermission_addPolicy_idempotent :
    ∀ (p : Policy) (r : Role) (permissionId policyId : ObjectId),
      (permissionId ∈ p.permissions → Policy.addPermission p permissionId = p) ∧
      (policyId ∈ r.policies → Role.addPolicy r policyId = r) := by
  intro p r permissionId policyId
  constructor
  · intro h
    simp [Policy.addPermission, h]
  · intro h
    simp [Role.addPolicy, h]

theorem addPermission_addPolicy_idempotent_witness :
    (3 ∈ policyViewer.permissions ∧ Policy.addPermission policyViewer 3 = policyViewer) ∧
    (2 ∈ roleSupport.policies ∧ Role.addPolicy roleSupport 2 = roleSupport) :=
  ⟨⟨by decide, (addPermission_addPolicy_idempotent policyViewer roleSupport 3 2).1 (by decide)⟩,
   ⟨by decide, (addPermission_addPolicy_idempotent policyViewer roleSupport 3 2).2 (by decide)⟩⟩

/-- C6: soft-deleting a Policy with `isSystem = true` always fails, and
soft-deleting a Role with `isSystem = true` or `isDefault = true` always
fails; soft-deleting a non-system Policy (resp. non-system, non-default
Role) always succeeds, sets `deletedAt`, clears `isActive`, and removes
the entity from subsequent find-all results. -/
theorem softDelete_system_protection :
    ∀ (p : Policy) (r : Role) (now : Nat) (pdb : List Policy) (rdb : List Role),
      (p.isSystem = true → ∃ m, Policy.softDelete p now = .error m) ∧
      (r.isSystem = true ∨ r.isDefault = true → ∃ m, Role.softDelete r now = .error m) ∧
      (p.isSystem = false →
        ∃ p', Policy.softDelete p now = .ok p' ∧ p'.deletedAt = some now ∧
          p'.isActive = false ∧
          ∀ q ∈ policyFindAll (savePolicy pdb p'), q._id ≠ p._id) ∧
      (r.isSystem = false → r.isDefault = false →
        ∃ r', Role.softDelete r now = .ok r' ∧ r'.deletedAt = some now ∧
          r'.isActive = false ∧
          ∀ q ∈ roleFindAll (saveRole rdb r'), q._id ≠ r._id) := by
  intro p r now pdb rdb
  refine ⟨?_, ?_, ?_, ?_⟩
  · intro h
    exact ⟨"Cannot delete system policies", by simp [Policy.softDelete, h]⟩
  · intro h
    by_cases hs : r.isSystem = true
    · exact ⟨"Cannot delete system roles", by simp [Role.softDelete, hs]⟩
    · have hd : r.isDefault = true := by
        rcases h with h | h
        · exact absurd h hs
        · exact h
      exact ⟨"Cannot delete default role", by simp [Role.softDelete, hs, hd]⟩
  · intro h
    refine ⟨{ p with deletedAt := some now, isActive := false },
      by simp [Policy.softDelete, h], rfl, rfl, ?_⟩
    intro q hq
    rw [policyFindAll, List.mem_mergeSort, List.mem_filter] at hq
    obtain ⟨hmem, hdel⟩ := hq
    rw [savePolicy, List.mem_map] at hmem
    obtain ⟨x, _, hx⟩ := hmem
    by_cases hid : x._id == p._id
    · simp [hid] at hx
      subst hx
      simp at hdel
    · simp [hid] at hx
      subst hx
      simpa using hid
  · intro hs hd
    refine ⟨{ r with deletedAt := some now, isActive := false },
      by simp [Role.softDelete, hs, hd], rfl, rfl, ?_⟩
    intro q hq
    rw [roleFindAll, List.mem_mergeSort, List.mem_filter] at hq
    obtain ⟨hmem, hdel⟩ := hq
    rw [saveRole, List.mem_map] at hmem
    obtain ⟨x, _, hx⟩ := hmem
    by_cases hid : x._id == r._id
    · simp [hid] at hx
      subst hx
      simp at hdel
    · simp [hid] at hx
      subst hx
      simpa using hid

theorem softDelete_system_protection_witness :
    (policySystem.isSystem = true ∧ (∃ m, Policy.softDelete policySystem 9 = .error m)) ∧
    (roleDefault.isDefault = true ∧ (∃ m, Role.softDelete roleDefault 9 = .error m)) ∧
    (policyViewer.isSystem = false ∧
      ∃ p', Policy.softDelete policyViewer 9 = .ok p' ∧ p'.deletedAt = some 9 ∧
        p'.isActive = false ∧
        ∀ q ∈ policyFindAll (savePolicy [policyViewer, policySystem] p'), q._id ≠ policyViewer._id) ∧
    (roleSupport.isSystem = false ∧ roleSupport.isDefault = false ∧
      ∃ r', Role.softDelete roleSupport 9 = .ok r' ∧ r'.deletedAt = some 9 ∧
        r'.isActive = false ∧
        ∀ q ∈ roleFindAll (saveRole [roleSupport, roleDefault] r'), q._id ≠ roleSupport._id) :=
  ⟨⟨rfl, (softDelete_system_protection policySystem roleDefault 9 [] []).1 rfl⟩,
   ⟨rfl, (softDelete_system_protection policySystem roleDefault 9 [] []).2.1 (Or.inr rfl)⟩,
   ⟨rfl, (softDelete_system_protection policyViewer roleSupport 9
      [policyViewer, policySystem] [roleSupport, roleDefault]).2.2.1 rfl⟩,
   ⟨rfl, rfl, (softDelete_system_protection policyViewer roleSupport 9
      [policyViewer, policySystem] [roleSupport, roleDefault]).2.2.2 rfl rfl⟩⟩

/-- C9: a Permission created without an explicitly supplied identifier is
stored with `identifier = resource ++ ":" ++ action` (derived by the
pre-save hook), and a partial update through `findByIdAndUpdate` that does
not patch the identifier never recomputes it — the updated document keeps
the stored document's identifier even when `resource` or `action` change. -/
theorem permissionIdentifier_derived_not_recomputed :
    ∀ (db : List Permission) (data : CreatePermissionData) (freshId : ObjectId)
      (id : ObjectId) (patch : PermissionPatch),
      (data.permissionIdentifier = none → data.resource ≠ "" → data.action ≠ "" →
        ((permissionServiceCreate db data freshId).1).permissionIdentifier
          = some (data.resource ++ ":" ++ data.action)) ∧
      (patch.permissionIdentifier = none →
        ∀ p', (permissionServiceUpdate db id patch).1 = some p' →
          ∃ q ∈ db, q._id = id ∧ p'.permissionIdentifier = q.permissionIdentifier) := by
  intro db data freshId id patch
  constructor
  · intro hid hres hact
    simp [permissionServiceCreate, permissionPreSave, mkPermission, hid, hres, hact]
  · intro hid p' hp'
    rw [permissionServiceUpdate] at hp'
    rcases hfind : db.find? (fun p => p._id == id) with _ | q
    · rw [hfind] at hp'
      simp at hp'
    · rw [hfind] at hp'
      simp at hp'
      refine ⟨q, List.mem_of_find?_eq_some hfind, ?_, ?_⟩
      · have := List.find?_some hfind
        simpa using this
      · rw [← hp']
        simp [applyPermissionPatch, hid]

theorem permissionIdentifier_derived_witness :
    (let data : CreatePermissionData :=
      { resource := "user", action := "read", name := "Read users"
        description := none, permissionIdentifier := none, isActive := none }
     ((permissionServiceCreate [] data 3).1).permissionIdentifier = some "user:read") ∧
    (let patch : PermissionPatch :=
      { permissionIdentifier := none, name := none, description := none
        resource := some "account", action := some "manage", isActive := none }
     ∃ q ∈ [permUserRead], q._id = 3 ∧
      ∀ p', (permissionServiceUpdate [permUserRead] 3 patch).1 = some p' →
        p'.permissionIdentifier = q.permissionIdentifier) := by
  constructor
  · intro data
    exact (permissionIdentifier_derived_not_recomputed [] data 3 0
      { permissionIdentifier := none, name := none, description := none
        resource := none, action := none, isActive := none }).1 rfl
      (by decide) (by decide)
  · intro patch
    refine ⟨permUserRead, by decide, by decide, ?_⟩
    intro p' hp'
    obtain ⟨q, hqmem, hqid, heq⟩ :=
      (permissionIdentifier_derived_not_recomputed [permUserRead]
        { resource := "", action := "", name := "", description := none
          permissionIdentifier := none, isActive := none } 0 3 patch).2 rfl p' hp'
    have : q = permUserRead := by
      simpa using hqmem
    rw [heq, this]

/-- C2: `suspendAdmin` applies its guards in order — self-suspension is
Forbidden, a missing target is NotFound, an already-suspended target is
BadRequest, an actor of type admin acting on a super_admin target is
Forbidden — and otherwise sets and persists `suspended` on the target;
`reactivateAdmin` applies the identical guard sequence with the states
inverted (already-active blocks with BadRequest, success persists
`active`). -/
theorem suspend_reactivate_guard_order :
    ∀ (repo : List AdminUser) (t a : String),
      (a = t →
        suspendAdmin repo t a = .error (.forbiddenException (.str ADMIN_SELF_SUSPEND))) ∧
      (a ≠ t → findAdminById repo t = none →
        suspendAdmin repo t a = .error (.notFoundException (.str ADMIN_NOT_FOUND))) ∧
      (a ≠ t → ∀ target, findAdminById repo t = some target →
        target.adminUserStatus = .suspended →
        suspendAdmin repo t a = .error (.badRequestException (.str ADMIN_ALREADY_SUSPENDED))) ∧
      (a ≠ t → ∀ target actor, findAdminById repo t = some target →
        target.adminUserStatus ≠ .suspended →
        findAdminById repo a = some actor →
        actor.adminUserType = .admin → target.adminUserType = .super_admin →
        suspendAdmin repo t a
          = .error (.forbiddenException (.str ADMIN_INSUFFICIENT_PERMISSIONS))) ∧
      (a ≠ t → ∀ target, findAdminById repo t = some target →
        target.adminUserStatus ≠ .suspended →
        (∀ actor, findAdminById repo a = some actor →
          ¬(actor.adminUserType = .admin ∧ target.adminUserType = .super_admin)) →
        suspendAdmin repo t a
          = .ok ({ target with adminUserStatus := .suspended },
                 saveAdmin repo { target with adminUserStatus := .suspended })) ∧
      (a = t →
        reactivateAdmin repo t a = .error (.forbiddenException (.str ADMIN_SELF_REACTIVATE))) ∧
      (a ≠ t → findAdminById repo t = none →
        reactivateAdmin repo t a = .error (.notFoundException (.str ADMIN_NOT_FOUND))) ∧
      (a ≠ t → ∀ target, findAdminById repo t = some target →
        target.adminUserStatus = .active →
        reactivateAdmin repo t a = .error (.badRequestException (.str ADMIN_ALREADY_ACTIVE))) ∧
      (a ≠ t → ∀ target actor, findAdminById repo t = some target →
        target.adminUserStatus ≠ .active →
        findAdminById repo a = some actor →
        actor.adminUserType = .admin → target.adminUserType = .super_admin →
        reactivateAdmin repo t a
          = .error (.forbiddenException (.str ADMIN_INSUFFICIENT_PERMISSIONS_REACTIVATE))) ∧
      (a ≠ t → ∀ target, findAdminById repo t = some target →
        target.adminUserStatus ≠ .active →
        (∀ actor, findAdminById repo a = some actor →
          ¬(actor.adminUserType = .admin ∧ target.adminUserType = .super_admin)) →
        reactivateAdmin repo t a
          = .ok ({ target with adminUserStatus := .active },
                 saveAdmin repo { target with adminUserStatus := .active })) := by
  intro repo t a
  refine ⟨?_, ?_, ?_, ?_, ?_, ?_, ?_, ?_, ?_, ?_⟩
  · intro h
    simp [suspendAdmin, h]
  · intro hne hfind
    simp [suspendAdmin, hne, hfind]
  · intro hne target hfind hstat
    simp [suspendAdmin, hne, hfind, hstat]
  · intro hne target actor hfind hstat hactor htyA htyT
    simp [suspendAdmin, hne, hfind, hstat, hactor, htyA, htyT]
  · intro hne target hfind hstat hguard
    rcases hactor : findAdminById repo a with _ | actor
    · simp [suspendAdmin, hne, hfind, hstat, hactor]
    · have := hguard actor hactor
      have hcase : (actor.adminUserType == AdminUserType.admin &&
          target.adminUserType == AdminUserType.super_admin) = false := by
        rcases h1 : actor.adminUserType <;> rcases h2 : target.adminUserType <;>
          simp_all
      simp [suspendAdmin, hne, hfind, hstat, hactor, hcase]
  · intro h
    simp [reactivateAdmin, h]
  · intro hne hfind
    simp [reactivateAdmin, hne, hfind]
  · intro hne target hfind hstat
    simp [reactivateAdmin, hne, hfind, hstat]
  · intro hne target actor hfind hstat hactor htyA htyT
    simp [reactivateAdmin, hne, hfind, hstat, hactor, htyA, htyT]
  · intro hne target hfind hstat hguard
    rcases hactor : findAdminById repo a with _ | actor
    · simp [reactivateAdmin, hne, hfind, hstat, hactor]
    · have := hguard actor hactor
      have hcase : (actor.adminUserType == AdminUserType.admin &&
          target.adminUserType == AdminUserType.super_admin) = false := by
        rcases h1 : actor.adminUserType <;> rcases h2 : target.adminUserType <;>
          simp_all
      simp [reactivateAdmin, hne, hfind, hstat, hactor, hcase]

theorem suspend_reactivate_guard_order_witness :
    suspendAdmin exAdminRepo "sa" "sa" = .error (.forbiddenException (.str ADMIN_SELF_SUSPEND)) ∧
    suspendAdmin exAdminRepo "ghost" "sa" = .error (.notFoundException (.str ADMIN_NOT_FOUND)) ∧
    suspendAdmin exAdminRepo "sp" "sa" = .error (.badRequestException (.str ADMIN_ALREADY_SUSPENDED)) ∧
    suspendAdmin exAdminRepo "sa" "ad" = .error (.forbiddenException (.str ADMIN_INSUFFICIENT_PERMISSIONS)) ∧
    suspendAdmin exAdminRepo "ad" "sa"
      = .ok ({ adminAD with adminUserStatus := .suspended },
             saveAdmin exAdminRepo { adminAD with adminUserStatus := .suspended }) ∧
    reactivateAdmin exAdminRepo "sa" "sa" = .error (.forbiddenException (.str ADMIN_SELF_REACTIVATE)) ∧
    reactivateAdmin exAdminRepo "ghost" "sa" = .error (.notFoundException (.str ADMIN_NOT_FOUND)) ∧
    reactivateAdmin exAdminRepo "ad" "sa" = .error (.badRequestException (.str ADMIN_ALREADY_ACTIVE)) ∧
    reactivateAdmin exAdminRepo "isa" "ad" = .error (.forbiddenException (.str ADMIN_INSUFFICIENT_PERMISSIONS_REACTIVATE)) ∧
    reactivateAdmin exAdminRepo "sp" "sa"
      = .ok ({ adminSusp with adminUserStatus := .active },
             saveAdmin exAdminRepo { adminSusp with adminUserStatus := .active }) :=
  ⟨(suspend_reactivate_guard_order exAdminRepo "sa" "sa").1 rfl,
   (suspend_reactivate_guard_order exAdminRepo "ghost" "sa").2.1 (by decide) (by decide),
   (suspend_reactivate_guard_order exAdminRepo "sp" "sa").2.2.1 (by decide) adminSusp (by decide) rfl,
   (suspend_reactivate_guard_order exAdminRepo "sa" "ad").2.2.2.1 (by decide) adminSA adminAD
     (by decide) (by decide) (by decide) rfl rfl,
   (suspend_reactivate_guard_order exAdminRepo "ad" "sa").2.2.2.2.1 (by decide) adminAD
     (by decide) (by decide) (by decide),
   (suspend_reactivate_guard_order exAdminRepo "sa" "sa").2.2.2.2.2.1 rfl,
   (suspend_reactivate_guard_order exAdminRepo "ghost" "sa").2.2.2.2.2.2.1 (by decide) (by decide),
   (suspend_reactivate_guard_order exAdminRepo "ad" "sa").2.2.2.2.2.2.2.1 (by decide) adminAD
     (by decide) rfl,
   (suspend_reactivate_guard_order exAdminRepo "isa" "ad").2.2.2.2.2.2.2.2.1 (by decide)
     adminInactiveSA adminAD (by decide) (by decide) (by decide) rfl rfl,
   (suspend_reactivate_guard_order exAdminRepo "sp" "sa").2.2.2.2.2.2.2.2.2 (by decide) adminSusp
     (by decide) (by decide) (by decide)⟩

/-- C10: in both `suspendAdmin` and `reactivateAdmin`, the
admin-over-super_admin guard is only evaluated when the actor's account
row is found — when the actor id matches no stored account (and differs
from the target), the insufficient-permissions check is skipped and the
transition succeeds whenever the target exists and is not already in the
blocking state, even for a super_admin target. -/
theorem unknown_actor_skips_permission_guard :
    ∀ (repo : List AdminUser) (t a : String) (target : AdminUser),
      a ≠ t → findAdminById repo t = some target → findAdminById repo a = none →
      (target.adminUserStatus ≠ .suspended →
        suspendAdmin repo t a
          = .ok ({ target with adminUserStatus := .suspended },
                 saveAdmin repo { target with adminUserStatus := .suspended })) ∧
      (target.adminUserStatus ≠ .active →
        reactivateAdmin repo t a
          = .ok ({ target with adminUserStatus := .active },
                 saveAdmin repo { target with adminUserStatus := .active })) := by
  intro repo t a target hne hfind hactor
  constructor
  · intro hstat
    simp [suspendAdmin, hne, hfind, hstat, hactor]
  · intro hstat
    simp [reactivateAdmin, hne, hfind, hstat, hactor]

theorem unknown_actor_skips_permission_guard_witness :
    findAdminById exAdminRepo "nobody" = none ∧
    adminSA.adminUserType = .super_admin ∧
    suspendAdmin exAdminRepo "sa" "nobody"
      = .ok ({ adminSA with adminUserStatus := .suspended },
             saveAdmin exAdminRepo { adminSA with adminUserStatus := .suspended }) ∧
    reactivateAdmin exAdminRepo "isa" "nobody"
      = .ok ({ adminInactiveSA with adminUserStatus := .active },
             saveAdmin exAdminRepo { adminInactiveSA with adminUserStatus := .active }) :=
  ⟨by decide, rfl,
   (unknown_actor_skips_permission_guard exAdminRepo "sa" "nobody" adminSA
     (by decide) (by decide) (by decide)).1 (by decide),
   (unknown_actor_skips_permission_guard exAdminRepo "isa" "nobody" adminInactiveSA
     (by decide) (by decide) (by decide)).2 (by decide)⟩

/-- C7: both auth-service catch blocks translate a provisioning failure
as the claim states — a connection failure or timeout (tested first) maps
to the service-unavailable failure; otherwise a 409 response maps to
Conflict (404 to NotFound for the password-reset path); a 400 response
maps to BadRequest with a list-valued message joined by `", "`; any other
failure maps to a generic `InternalServerErrorException` carrying the
collaborator's message when one is present.  The underlying axios calls
carry the bounded `AUTH_SERVICE_TIMEOUT_MS` timeout. -/
theorem auth_service_failure_translation :
    ∀ e : AxiosFailure,
      (isConnFailure e = true →
        createAdminAuthError e = .internalServerErrorException (.str AUTH_SERVICE_UNAVAILABLE) ∧
        sendResetLinkError e = .internalServerErrorException (.str AUTH_SERVICE_UNAVAILABLE)) ∧
      (isConnFailure e = false → e.status = some 409 →
        createAdminAuthError e
          = .conflictException (HttpMsg.orDefault e.message "User already exists in auth service")) ∧
      (isConnFailure e = false → e.status = some 404 →
        sendResetLinkError e = .notFoundException (HttpMsg.orDefault e.message USER_NOT_FOUND)) ∧
      (isConnFailure e = false → e.status = some 400 →
        createAdminAuthError e
          = .badRequestException (.str (HttpMsg.joinOr e.message AUTH_SERVICE_VALIDATION_ERROR)) ∧
        sendResetLinkError e
          = .badRequestException (.str (HttpMsg.joinOr e.message AUTH_SERVICE_VALIDATION_ERROR)) ∧
        ∀ l, e.message = some (.list l) →
          HttpMsg.joinOr e.message AUTH_SERVICE_VALIDATION_ERROR = String.intercalate ", " l) ∧
      (isConnFailure e = false → e.status ≠ some 409 → e.status ≠ some 400 →
        createAdminAuthError e
          = .internalServerErrorException (HttpMsg.orDefault e.message AUTH_SERVICE_SIGNUP_FAILED) ∧
        ∀ s, e.message = some (.str s) → s ≠ "" →
          HttpMsg.orDefault e.message AUTH_SERVICE_SIGNUP_FAILED = .str s) ∧
      (isConnFailure e = false → e.status ≠ some 404 → e.status ≠ some 400 →
        sendResetLinkError e
          = .internalServerErrorException (HttpMsg.orDefault e.message RESET_LINK_SEND_FAILED)) ∧
      0 < AUTH_SERVICE_TIMEOUT_MS := by
  intro e
  refine ⟨?_, ?_, ?_, ?_, ?_, ?_, by decide⟩
  · intro h
    exact ⟨by simp [createAdminAuthError, h], by simp [sendResetLinkError, h]⟩
  · intro hc hs
    simp [createAdminAuthError, hc, hs]
  · intro hc hs
    simp [sendResetLinkError, hc, hs]
  · intro hc hs
    refine ⟨by simp [createAdminAuthError, hc, hs], by simp [sendResetLinkError, hc, hs], ?_⟩
    intro l hl
    simp [HttpMsg.joinOr, hl]
  · intro hc h409 h400
    refine ⟨by simp [createAdminAuthError, hc, h409, h400], ?_⟩
    intro s hs hne
    simp [HttpMsg.orDefault, hs, hne]
  · intro hc h404 h400
    simp [sendResetLinkError, hc, h404, h400]

theorem auth_service_failure_translation_witness :
    (isConnFailure { code := some "ECONNREFUSED", status := none, message := none } = true ∧
      createAdminAuthError { code := some "ECONNREFUSED", status := none, message := none }
        = .internalServerErrorException (.str AUTH_SERVICE_UNAVAILABLE)) ∧
    createAdminAuthError { code := none, status := some 409, message := some (.str "dup") }
      = .conflictException (.str "dup") ∧
    sendResetLinkError { code := none, status := some 404, message := none }
      = .notFoundException (.str USER_NOT_FOUND) ∧
    createAdminAuthError { code := none, status := some 400, message := some (.list ["bad email", "bad name"]) }
      = .badRequestException (.str "bad email, bad name") ∧
    createAdminAuthError { code := none, status := some 500, message := some (.str "boom") }
      = .internalServerErrorException (.str "boom") ∧
    sendResetLinkError { code := none, status := some 500, message := none }
      = .internalServerErrorException (.str RESET_LINK_SEND_FAILED) := by
  refine ⟨⟨rfl, ?_⟩, ?_, ?_, ?_, ?_, ?_⟩
  · exact ((auth_service_failure_translation
      { code := some "ECONNREFUSED", status := none, message := none }).1 rfl).1
  · exact (auth_service_failure_translation
      { code := none, status := some 409, message := some (.str "dup") }).2.1 rfl rfl
  · exact (auth_service_failure_translation
      { code := none, status := some 404, message := none }).2.2.1 rfl rfl
  · have h := (auth_service_failure_translation
      { code := none, status := some 400, message := some (.list ["bad email", "bad name"]) }).2.2.2.1
      rfl rfl
    rw [h.1]
    rfl
  · have h := (auth_service_failure_translation
      { code := none, status := some 500, message := some (.str "boom") }).2.2.2.2.1
      rfl (by decide) (by decide)
    rw [h.1]
    rfl
  · have h := (auth_service_failure_translation
      { code := none, status := some 500, message := none }).2.2.2.2.2.1
      rfl (by decide) (by decide)
    rw [h]
    rfl

/-- The Mongo filter of `getActiveUserRoles` agrees pointwise with the
spec's effectiveness predicate. -/
theorem activeUserRolesFilter_iff (userId : String) (now : Nat) (d : UserRole) :
    activeUserRolesFilter userId now d = true ↔ specEffective userId now d := by
  unfold activeUserRolesFilter specEffective expiryClause
  rcases hd : d.expiresAt with _ | t <;> simp [hd, and_assoc]

/-- C1 (amended): `get-effective-roles(userId)` returns exactly the
assignments satisfying the effectiveness predicate — in particular it
never includes an assignment whose `expiresAt` is in the past — and each
returned assignment is expanded with its Role document: the role field is
populated precisely when the referenced Role is stored (the `isSome` ↔
clause), and the populated value is that stored Role in shallow form —
its policies stay ObjectId references (they are not expanded with
Policies or Permissions, see `getActiveUserRoles_not_deeply_expanded`). -/
theorem getActiveUserRoles_effective_and_role_populated :
    ∀ (db : RbacDb) (userId : String) (now : Nat),
      ((getActiveUserRoles db userId now).map UserRolePop.doc
        = db.userRoles.filter (fun d => decide (specEffective userId now d))) ∧
      (∀ it ∈ getActiveUserRoles db userId now,
        specEffective userId now it.doc ∧
        (∀ t, it.doc.expiresAt = some t → now < t) ∧
        (it.role.isSome ↔ ∃ role ∈ db.roles, role._id = it.doc.roleId) ∧
        (∀ r, it.role = some r →
          ∃ role ∈ db.roles, role._id = it.doc.roleId ∧ r = role.shallowPop ∧
            r.policies = role.policies.map PolicyRef.ref)) := by
  intro db userId now
  constructor
  · rw [getActiveUserRoles, List.map_map]
    have h1 : (UserRolePop.doc ∘ fun d =>
        ({ doc := d,
           role := (db.roles.find? (fun r => r._id == d.roleId)).map Role.shallowPop }
          : UserRolePop)) = fun d => d := rfl
    rw [h1, List.map_id']
    exact List.filter_congr (fun d _ => by
      rcases h : activeUserRolesFilter userId now d
      · symm
        simpa using fun hc => by
          rw [← activeUserRolesFilter_iff] at hc
          simp [h] at hc
      · symm
        simpa using (activeUserRolesFilter_iff userId now d).mp h)
  · intro it hit
    rw [getActiveUserRoles, List.mem_map] at hit
    obtain ⟨d, hdmem, hd⟩ := hit
    rw [List.mem_filter] at hdmem
    obtain ⟨_, hfilter⟩ := hdmem
    have heff : specEffective userId now d := (activeUserRolesFilter_iff userId now d).mp hfilter
    have hdoc : it.doc = d := by rw [← hd]
    have hrole : it.role
        = (db.roles.find? (fun ro => ro._id == d.roleId)).map Role.shallowPop := by
      rw [← hd]
    refine ⟨by rw [hdoc]; exact heff, ?_, ?_, ?_⟩
    · intro t ht
      rw [hdoc] at ht
      rcases heff.2.2.2 with hnone | ⟨t', ht', hlt⟩
      · rw [hnone] at ht
        cases ht
      · rw [ht'] at ht
        cases ht
        exact hlt
    · rw [hrole, hdoc, Option.isSome_map']
      rw [List.find?_isSome]
      constructor
      · rintro ⟨role, hmem, hbeq⟩
        exact ⟨role, hmem, by simpa using hbeq⟩
      · rintro ⟨role, hmem, hid⟩
        exact ⟨role, hmem, by simpa using hid⟩
    · intro r hr
      rw [hrole] at hr
      rw [Option.map_eq_some'] at hr
      obtain ⟨role, hfind, hshallow⟩ := hr
      refine ⟨role, List.mem_of_find?_eq_some hfind, ?_, hshallow.symm, ?_⟩
      · have := List.find?_some hfind
        rw [hdoc]
        simpa using this
      · rw [← hshallow]
        rfl

theorem getActiveUserRoles_effective_witness :
    getActiveUserRoles exRbacDb "u1" 0
      = [{ doc := urLive, role := some roleSupport.shallowPop }] ∧
    (getActiveUserRoles exRbacDb "u1" 0).map UserRolePop.doc
      = exRbacDb.userRoles.filter (fun d => decide (specEffective "u1" 0 d)) ∧
    ∀ it ∈ getActiveUserRoles exRbacDb "u1" 0,
      specEffective "u1" 0 it.doc ∧
      it.role.isSome = true ∧
      ∀ r, it.role = some r → ∃ role ∈ exRbacDb.roles, role._id = it.doc.roleId ∧
        r = role.shallowPop :=
  ⟨by decide,
   (getActiveUserRoles_effective_and_role_populated exRbacDb "u1" 0).1,
   fun it hit =>
     ⟨((getActiveUserRoles_effective_and_role_populated exRbacDb "u1" 0).2 it hit).1,
      (((getActiveUserRoles_effective_and_role_populated exRbacDb "u1" 0).2 it hit).2.2.1).mpr
        ⟨roleSupport, by decide, by
          have hdoc : it.doc.roleId = urLive.roleId := by
            have hmem := hit
            rw [show getActiveUserRoles exRbacDb "u1" 0
                = [{ doc := urLive, role := some roleSupport.shallowPop }] from by decide]
              at hmem
            have : it = { doc := urLive, role := some roleSupport.shallowPop } := by
              simpa using hmem
            rw [this]
          rw [hdoc]
          rfl⟩,
      fun r hr => by
        obtain ⟨role, hmem, hid, hsh, _⟩ :=
          ((getActiveUserRoles_effective_and_role_populated exRbacDb "u1" 0).2 it hit).2.2.2 r hr
        exact ⟨role, hmem, hid, hsh⟩⟩⟩

/-- C1 counterexample: on a database where the permission graph is fully
present (role `support` → policy `viewer` → permission `user:read`), the
result of `get-effective-roles` is *not* expanded down to Policies and
Permissions — `populate('roleId')` leaves the role's policy references as
raw ObjectIds, unlike the nested population that `findAll` performs. -/
theorem getActiveUserRoles_not_deeply_expanded :
    policyViewer ∈ exRbacDb.policies ∧ permUserRead ∈ exRbacDb.permissions ∧
    ¬ ∀ it ∈ getActiveUserRoles exRbacDb "u1" 0, specDeeplyExpanded it = true := by
  refine ⟨by decide, by decide, ?_⟩
  decide

/-- C3: `assignRole` is idempotent on a live assignment — when the lookup
for the `(userId, roleId)` pair yields a non-soft-deleted assignment, the
service returns that document unchanged (its `assignedAt` untouched) and
performs no write: the collection is returned exactly as it was, so no
new row is created. -/
theorem assignRole_idempotent_on_live :
    ∀ (db : List UserRole) (data : AssignRoleData) (now freshId : Nat) (ex : UserRole),
      db.find? (pairFilter data.userId data.roleId) = some ex →
      ex.deletedAt = none →
      assignRole db data now freshId = (ex, db) := by
  intro db data now freshId ex hfind hdel
  simp [assignRole, hfind, hdel]

theorem assignRole_idempotent_on_live_witness :
    exUserRoles.find? (pairFilter exAssignData.userId exAssignData.roleId) = some urLive ∧
    urLive.deletedAt = none ∧
    assignRole exUserRoles exAssignData 99 42 = (urLive, exUserRoles) :=
  ⟨by decide, rfl,
   assignRole_idempotent_on_live exUserRoles exAssignData 99 42 urLive (by decide) rfl⟩

/-- The `assignRole` preserves the reachable-state invariant of the
assignment store. -/
theorem liveConsistent_assignRole :
    ∀ (db : List UserRole) (data : AssignRoleData) (now freshId : Nat),
      liveConsistent db → liveConsistent (assignRole db data now freshId).2 := by
  intro db data now freshId hlc
  rcases hfind : db.find? (pairFilter data.userId data.roleId) with _ | ex
  · simp only [assignRole, hfind]
    intro d hd
    rcases List.mem_append.mp hd with h | h
    · exact hlc d h
    · have : d = persistUserRole (mkUserRole freshId data now) := by simpa using h
      subst this
      exact ⟨rfl, fun _ => rfl⟩
  · by_cases hdel : ex.deletedAt = none
    · simpa only [assignRole, hfind, hdel, ne_eq, not_true_eq_false, if_false,
        Bool.false_eq_true] using hlc
    · simp only [assignRole, hfind, hdel, ne_eq, not_false_iff, if_true]
      intro d hd
      simp only [saveUserRole, List.mem_map] at hd
      obtain ⟨x, hx, hxd⟩ := hd
      by_cases hid : (x._id == ex._id) = true
      · simp only [hid, if_true] at hxd
        subst hxd
        exact ⟨rfl, fun _ => rfl⟩
      · simp only [hid, if_false, Bool.false_eq_true] at hxd
        subst hxd
        exact hlc x hx

/-- The `revokeRole` preserves the reachable-state invariant of the
assignment store. -/
theorem liveConsistent_revokeRole :
    ∀ (db : List UserRole) (userId : String) (roleId : ObjectId)
      (revokedBy : Option String) (now : Nat),
      liveConsistent db → liveConsistent (revokeRole db userId roleId revokedBy now).2 := by
  intro db userId roleId revokedBy now hlc
  rcases hfind : db.find? (activePairFilter userId roleId) with _ | d0
  · simpa only [revokeRole, hfind] using hlc
  · simp only [revokeRole, hfind]
    intro d hd
    simp only [saveUserRole, List.mem_map] at hd
    obtain ⟨x, hx, hxd⟩ := hd
    by_cases hid : (x._id == (d0.revoke revokedBy now)._id) = true
    · simp only [hid, if_true] at hxd
      subst hxd
      refine ⟨rfl, fun hact => ?_⟩
      rcases revokedBy with _ | rb <;>
        simp [persistUserRole, UserRole.revoke] at hact
    · simp only [hid, if_false, Bool.false_eq_true] at hxd
      subst hxd
      exact hlc x hx

/-- C4 (amended): on a `liveConsistent` store (the invariant every write
path of the repository maintains), `revokeRole` returns `null` and raises
no error when no effective assignment exists for the pair; when one
exists it returns a soft-deleted document (`deletedAt` set, `isActive`
cleared) and, when the optional `revokedBy` argument is supplied, records
`revokedBy` and `revokedAt` in the assignment's metadata. -/
theorem revokeRole_noop_or_soft_delete :
    ∀ (db : List UserRole) (userId : String) (roleId : ObjectId)
      (revokedBy : Option String) (now : Nat),
      liveConsistent db →
      ((¬ ∃ d ∈ db, d.roleId = roleId ∧ specEffective userId now d) →
        revokeRole db userId roleId revokedBy now = (none, db)) ∧
      ((∃ d ∈ db, d.roleId = roleId ∧ specEffective userId now d) →
        ∃ d', (revokeRole db userId roleId revokedBy now).1 = some d') ∧
      (∀ d', (revokeRole db userId roleId revokedBy now).1 = some d' →
        d'.deletedAt = some now ∧ d'.isActive = false ∧
        ∀ rb, revokedBy = some rb →
          d'.metadata.revokedBy = some rb ∧ d'.metadata.revokedAt = some now) := by
  intro db userId roleId revokedBy now hlc
  refine ⟨?_, ?_, ?_⟩
  · intro hno
    have hfind : db.find? (activePairFilter userId roleId) = none := by
      rcases hf : db.find? (activePairFilter userId roleId) with _ | d
      · rfl
      · exfalso
        have hmem := List.mem_of_find?_eq_some hf
        have hp := List.find?_some hf
        rw [activePairFilter] at hp
        simp only [Bool.and_eq_true, beq_iff_eq] at hp
        obtain ⟨⟨huid, hrid⟩, hact⟩ := hp
        obtain ⟨hexp, hdel⟩ := hlc d hmem
        exact hno ⟨d, hmem, hrid, huid, hact, hdel hact, Or.inl hexp⟩
    simp [revokeRole, hfind]
  · rintro ⟨d, hmem, hrid, heff⟩
    have hp : activePairFilter userId roleId d = true := by
      rw [activePairFilter]
      simp only [Bool.and_eq_true, beq_iff_eq]
      exact ⟨⟨heff.1, hrid⟩, heff.2.1⟩
    have : (db.find? (activePairFilter userId roleId)).isSome :=
      List.find?_isSome.mpr ⟨d, hmem, hp⟩
    rcases hf : db.find? (activePairFilter userId roleId) with _ | d0
    · rw [hf] at this
      cases this
    · exact ⟨d0.revoke revokedBy now, by simp [revokeRole, hf]⟩
  · intro d' hd'
    rcases hf : db.find? (activePairFilter userId roleId) with _ | d0
    · simp [revokeRole, hf] at hd'
    · simp [revokeRole, hf] at hd'
      subst hd'
      rcases revokedBy with _ | rb
      · exact ⟨rfl, rfl, fun rb h => by cases h⟩
      · exact ⟨rfl, rfl, fun rb' h => by cases h; exact ⟨rfl, rfl⟩⟩

theorem revokeRole_noop_or_soft_delete_witness :
    liveConsistent exUserRoles ∧
    revokeRole exUserRoles "absent-user" 1 (some "boss") 5 = (none, exUserRoles) ∧
    (∃ d', (revokeRole exUserRoles "u1" 1 (some "boss") 5).1 = some d' ∧
      d'.deletedAt = some 5 ∧ d'.isActive = false ∧
      d'.metadata.revokedBy = some "boss" ∧ d'.metadata.revokedAt = some 5) := by
  refine ⟨by decide, ?_, ?_⟩
  · refine (revokeRole_noop_or_soft_delete exUserRoles "absent-user" 1 (some "boss") 5
      (by decide)).1 ?_
    rintro ⟨d, hmem, -, heff⟩
    have : d = urLive := by simpa [exUserRoles] using hmem
    subst this
    exact absurd heff.1 (by decide)
  · obtain ⟨d', hd'⟩ :=
      ((revokeRole_noop_or_soft_delete exUserRoles "u1" 1 (some "boss") 5 (by decide)).2.1
        ⟨urLive, by decide, rfl, by decide⟩)
    obtain ⟨h1, h2, h3⟩ :=
      (revokeRole_noop_or_soft_delete exUserRoles "u1" 1 (some "boss") 5 (by decide)).2.2 d' hd'
    obtain ⟨h4, h5⟩ := h3 "boss" rfl
    exact ⟨d', hd', h1, h2, h4, h5⟩

/-- C4 counterexample: called on an effective assignment without a
`revokedBy` argument, `revokeRole` soft-deletes but records neither
`revokedBy` nor `revokedAt` — the metadata write in
`UserRoleSchema.methods.revoke` sits inside `if (revokedBy)`. -/
theorem revokeRole_drops_metadata_without_revokedBy :
    urLive ∈ exUserRoles ∧ specEffective "u1" 5 urLive ∧
    ∃ d', (revokeRole exUserRoles "u1" 1 none 5).1 = some d' ∧
      d'.metadata.revokedAt = none ∧ d'.metadata.revokedBy = none := by
  refine ⟨by decide, by decide, urLive.revoke none 5, by decide, rfl, rfl⟩

/-- C5: the `extendExpiry` document method that
`UserRoleService.extendExpiry` dispatches to does not exist — the
`UserRole` schema defines only `revoke` and `restore` (and no `expiresAt`
path), so with an effective assignment present the call throws a
`TypeError` instead of extending any expiry; only the no-assignment
branch completes, returning `null`. -/
theorem extendExpiry_method_missing :
    extendExpiry exUserRoles "u1" 1 30
      = .error "TypeError: userRole.extendExpiry is not a function" ∧
    extendExpiry exUserRoles "no-such-user" 1 30 = .ok none := by
  exact ⟨rfl, rfl⟩

end Pente
